import Mathlib

/-!
Verification of the docker-compose scaffolder action (`src/runDockerCompose.ts`).

The handler is shallowly embedded: YAML values that `js-yaml` can produce are
modelled by `YVal`; JavaScript property access, truthiness, string conversion
and iteration are modelled by small total or `Except`-valued functions that
mirror the JS semantics the handler actually exercises; the external world
(file existence, the parse outcome, the docker container table, the
`docker compose up` exit code, and the raw stdout of the per-service port
query) is an explicit `Env`.  The handler returns the list of external
operations it issued (`Event`) together with either a thrown error or the
action's output.
-/

/-- A JavaScript value as produced by `yaml.load` (plus `undefined`, which is
what property access on a non-object returns and what `js-yaml` returns for an
empty document).  Objects are association lists with unique keys, in insertion
order, matching JS object semantics. -/
inductive YVal where
  | vnull
  | vundefined
  | vbool (b : Bool)
  | vnum (n : Int)
  | vstr (s : String)
  | varr (xs : List YVal)
  | vobj (fields : List (String × YVal))

/-- The only JS runtime error the handler can hit outside a `try` block:
a `TypeError` from property access on `null`/`undefined`, from calling
`.toString()` on them, or from `for…of` over a non-iterable. -/
inductive JsError where
  | typeError
deriving DecidableEq

/-- JS truthiness, as used by `if (composeDoc.services)`, `if (def.ports)`,
`def.container_name ? … : …` and `if (ports && …)`. -/
def truthy : YVal → Bool
  | .vnull => false
  | .vundefined => false
  | .vbool b => b
  | .vnum n => n != 0
  | .vstr s => s != ""
  | .varr _ => true
  | .vobj _ => true

/-- JS property access `v.k`: throws `TypeError` on `null`/`undefined`,
looks the key up on objects (missing key gives `undefined`), and gives
`undefined` on other primitives and arrays (the handler only reads the keys
`services`, `container_name` and `ports`, which none of those carry). -/
def getField : YVal → String → Except JsError YVal
  | .vnull, _ => .error .typeError
  | .vundefined, _ => .error .typeError
  | .vobj fields, k => .ok ((fields.lookup k).getD .vundefined)
  | _, _ => .ok .vundefined

/-- `Object.keys(v)` for the values the handler can reach it with (`v` is
truthy there): object keys in insertion order, index strings for strings and
arrays, and nothing for other primitives. -/
def objKeys : YVal → List String
  | .vobj fields => (fields.map Prod.fst).eraseDups
  | .vstr s => (List.range s.length).map toString
  | .varr xs => (List.range xs.length).map toString
  | _ => []

/-- JS bracket access `base[k]` for a non-nullish `base`
(`composeDoc.services[service]`). -/
def jsIndex : YVal → String → YVal
  | .vobj fields, k => (fields.lookup k).getD .vundefined
  | .vstr s, k =>
      match k.toNat? with
      | some i => if i < s.data.length then .vstr (String.mk [s.data.getD i ' ']) else .vundefined
      | none => .vundefined
  | .varr xs, k =>
      match k.toNat? with
      | some i => (xs.getD i .vundefined)
      | none => .vundefined
  | _, _ => .vundefined

mutual
/-- Element conversion used by `Array.prototype.toString` (JS `join(",")`
turns `null`/`undefined` elements into the empty string). -/
def jsArrElemStr : YVal → String
  | .vnull => ""
  | .vundefined => ""
  | .vbool b => if b then "true" else "false"
  | .vnum n => toString n
  | .vstr s => s
  | .varr xs => String.intercalate "," (jsArrStrs xs)
  | .vobj _ => "[object Object]"

/-- Stringify every element of a JS array, for `join(",")`. -/
def jsArrStrs : List YVal → List String
  | [] => []
  | v :: vs => jsArrElemStr v :: jsArrStrs vs
end

/-- JS `v.toString()` as called on each entry of a `ports` array: throws on
`null`/`undefined`, otherwise agrees with `String(v)`. -/
def jsToString : YVal → Except JsError String
  | .vnull => .error .typeError
  | .vundefined => .error .typeError
  | .varr xs => .ok (String.intercalate "," (jsArrStrs xs))
  | v => .ok (jsArrElemStr v)

/-- JS template-literal interpolation `${v}` (i.e. `String(v)`), used to build
the derived container name; unlike `.toString()` it is total. -/
def jsTemplateStr : YVal → String
  | .vnull => "null"
  | .vundefined => "undefined"
  | v => jsArrElemStr v

/-- JS `for (const p of v)`: arrays yield their elements, strings yield their
characters, everything else throws `TypeError`. -/
def jsIterate : YVal → Except JsError (List YVal)
  | .varr xs => .ok xs
  | .vstr s => .ok (s.data.map (fun c => .vstr (String.mk [c])))
  | _ => .error .typeError

/-- Prefix test on character lists. -/
def isPrefixChars : List Char → List Char → Bool
  | [], _ => true
  | _ :: _, [] => false
  | a :: as, b :: bs => a == b && isPrefixChars as bs

/-- Substring occurrence on character lists: the pattern occurs at some
position (the empty pattern occurs everywhere). -/
def containsSub : List Char → List Char → Bool
  | [], pat => pat.isEmpty
  | c :: t, pat => isPrefixChars pat (c :: t) || containsSub t pat

/-- JS `String.prototype.includes`: substring occurrence. -/
def jsIncludes (s pat : String) : Bool :=
  containsSub s.data pat.data

/-- JS `String.prototype.split` with a single-character separator (the
handler only splits on `:`, `/` and newline), on character lists: splitting
produces the (possibly empty) segments between separator occurrences. -/
def splitOnChar (sep : Char) : List Char → List (List Char)
  | [] => [[]]
  | c :: cs =>
      let r := splitOnChar sep cs
      if c == sep then [] :: r
      else
        match r with
        | [] => [[c]]
        | h :: t => (c :: h) :: t

/-- JS `s.split(sep)` for a one-character separator. -/
def jsSplit (s : String) (sep : Char) : List String :=
  (splitOnChar sep s.data).map String.mk

/-- The whitespace characters relevant to this output format. -/
def isWsChar (c : Char) : Bool :=
  c == ' ' || c == '\t' || c == '\n' || c == '\r'

/-- Truthiness of `line.trim()`: the line has a non-whitespace character. -/
def jsTrimNonempty (s : String) : Bool :=
  s.data.any (fun c => !isWsChar c)

/-- `${code}` for the `close`-event code of a child process
(a number, or `null` when the process was killed by a signal). -/
def jsCodeStr : Option Int → String
  | none => "null"
  | some n => toString n

/-- Lines 96–99: `const parts = p.toString().split(':'); if (parts.length >= 2)
expectedHostPorts.push(parts[0])` — the declared host port extracted from one
(already stringified) port specification. -/
def declaredHostPort (pstr : String) : Option String :=
  let parts := jsSplit pstr ':'
  if parts.length ≥ 2 then some (parts.headD "") else none

/-- Lines 93–101: the `expectedHostPorts` accumulated from a service's
`ports` value (guarded by truthiness, iterated with `for…of`, each entry
stringified with `.toString()`). -/
def portsOfValue (pv : YVal) : Except JsError (List String) :=
  if truthy pv then do
    let items ← jsIterate pv
    items.foldlM
      (fun acc p => do
        let s ← jsToString p
        match declaredHostPort s with
        | some h => pure (acc ++ [h])
        | none => pure acc)
      []
  else .ok []

/-- The per-service cleanup record of lines 78–82. -/
structure SvcInfo where
  service : String
  containerName : String
  expectedHostPorts : List String
deriving DecidableEq

/-- `path.basename(cwd)` (line 76), for slash-separated paths. -/
def baseName (p : String) : String := (jsSplit p '/').getLastD ""

/-- Lines 86–103, one loop iteration: resolve the service definition
`composeDoc.services[service]`, the container name
(`def.container_name ? def.container_name : composeDirName_service_1`)
and the declared host ports. -/
def buildSvcInfo (composeDirName : String) (doc : YVal) (service : String) :
    Except JsError SvcInfo := do
  let sv ← getField doc "services"
  let d := jsIndex sv service
  let cn ← getField d "container_name"
  let containerName :=
    if truthy cn then jsTemplateStr cn else composeDirName ++ "_" ++ service ++ "_1"
  let pv ← getField d "ports"
  let ports ← portsOfValue pv
  pure ⟨service, containerName, ports⟩

/-- The whole `for (const service of serviceNames)` loop of lines 86–104. -/
def buildSvcInfos (composeDirName : String) (doc : YVal) (names : List String) :
    Except JsError (List SvcInfo) :=
  names.foldlM
    (fun acc s => do
      let info ← buildSvcInfo composeDirName doc s
      pure (acc ++ [info]))
    []

/-- One row of the docker container table: its (unique) name, its `{{.Ports}}`
text, and whether it is currently running (`docker ps` lists only running
containers, `docker ps -a` lists all). -/
structure Container where
  name : String
  portsText : String
  running : Bool
deriving DecidableEq

/-- An external operation issued, or a warning logged, by the handler. -/
inductive Event where
  | warn (msg : String)
  | removeAttempt (name : String)
  | launch (composePath : String)
  | discoverQuery (service : String)
deriving DecidableEq

/-- `removeContainer` (lines 108–117): the anchored-regex name filter
`name=^N$` matches exactly the containers named `N`; `docker rm -f` deletes
every match, leaving the rest of the table unchanged. -/
def removeByFilter (st : List Container) (n : String) : List Container :=
  st.filter (fun c => c.name != n)

/-- Lines 119–123: remove containers by name — one `removeContainer` call per
service, in order, each recorded as a `removeAttempt`. -/
def namePass (svcs : List SvcInfo) (st : List Container) :
    List Container × List Event :=
  svcs.foldl
    (fun acc svc =>
      (removeByFilter acc.1 svc.containerName,
       acc.2 ++ [Event.removeAttempt svc.containerName]))
    (st, [])

/-- Lines 140: the per-container conflict test — the `{{.Ports}}` field must be
truthy and contain the substring `"{port}->"`. -/
def portConflicts (port portsText : String) : Bool :=
  portsText != "" && jsIncludes portsText (port ++ "->")

/-- Lines 130–146: `docker ps --format "{{.Names}}:::{{.Ports}}"` over the
currently running containers, filtered by the conflict test, yielding names. -/
def conflictQuery (st : List Container) (port : String) : List String :=
  (st.filter (fun c => c.running && portConflicts port c.portsText)).map Container.name

/-- Lines 128–151, one port: query the running containers for conflicts, then
remove each conflicting container in turn. -/
def portStep (acc : List Container × List Event) (port : String) :
    List Container × List Event :=
  (conflictQuery acc.1 port).foldl
    (fun a cname => (removeByFilter a.1 cname, a.2 ++ [Event.removeAttempt cname]))
    acc

/-- Lines 126–153: the port-conflict pass — for every service, for every
declared host port, run `portStep`. -/
def portPass (svcs : List SvcInfo) (st : List Container) :
    List Container × List Event :=
  svcs.foldl (fun acc svc => svc.expectedHostPorts.foldl portStep acc) (st, [])

/-- One observed host/container port pair (line 200). -/
structure PortBinding where
  hostPort : String
  containerPort : String
deriving DecidableEq

/-- The regex `^(\d+)\/tcp -> [^:]+:(\d+)$` of line 203, as a deterministic
character-level matcher.  Backtracking cannot produce any other match: `\d+`
must stop at the first non-digit because the following literal `/` is not a
digit, and `[^:]+` must stop at the first `:`.  Returns the two capture
groups `(containerPort digits, hostPort digits)`. -/
def parsePortLineChars (cs : List Char) : Option (List Char × List Char) :=
  let d := cs.takeWhile Char.isDigit
  let rest := cs.drop d.length
  if d.length = 0 then none
  else if rest.take 8 = "/tcp -> ".data then
    let r := rest.drop 8
    let host := r.takeWhile (fun c => c != ':')
    match r.drop host.length with
    | ':' :: rest2 =>
        if host.length ≠ 0 ∧ rest2 ≠ [] ∧ rest2.all Char.isDigit then
          some (d, rest2)
        else none
    | _ => none
  else none

/-- Lines 203–206: match one output line against the port-mapping regex and
build the `{hostPort, containerPort}` record from the capture groups. -/
def parsePortLine (line : String) : Option PortBinding :=
  match parsePortLineChars line.data with
  | some (d, p) => some ⟨String.mk p, String.mk d⟩
  | none => none

/-- Lines 200–208: split the query's stdout on newlines, skip blank lines
(`if (line.trim())`), and collect the bindings of the lines the regex
accepts; lines it rejects are skipped silently. -/
def parseDiscoverOutput (output : String) : List PortBinding :=
  (jsSplit output '\n').foldl
    (fun acc line =>
      if jsTrimNonempty line then
        match parsePortLine line with
        | some b => acc ++ [b]
        | none => acc
      else acc)
    []

/-- The result of stage 1 (lines 58–70): the detected service names, the
value left in `composeDoc`, and the warning logged by the `catch`, if any. -/
structure Step1Out where
  serviceNames : List String
  composeDoc : YVal
  events : List Event

/-- Stage 1 (lines 58–70): `composeDoc = yaml.load(…)` (its outcome is given
by the environment), then `if (composeDoc.services) serviceNames =
Object.keys(composeDoc.services)`, with the whole block in a `try` whose
`catch` logs a warning.  A parse throw leaves `composeDoc` as the initial
`{}`; a `TypeError` from `.services` (null/undefined root) leaves the parsed
value in `composeDoc`; a falsy `services` is silently skipped. -/
def step1 (pr : Except Unit YVal) : Step1Out :=
  match pr with
  | .error _ => ⟨[], .vobj [], [.warn "Failed to parse compose file"]⟩
  | .ok doc =>
    match getField doc "services" with
    | .error _ => ⟨[], doc, [.warn "Failed to parse compose file"]⟩
    | .ok sv => if truthy sv then ⟨objKeys sv, doc, []⟩ else ⟨[], doc, []⟩

/-- Everything outside the handler's own control: whether the compose file
exists, the outcome of `yaml.load`, the initial docker container table, the
exit code of `docker compose up` (`none` = killed by a signal), and the raw
stdout of the stage-4 port query for each service name. -/
structure Env where
  fileExists : Bool
  parseOutcome : Except Unit YVal
  docker0 : List Container
  upExit : Option Int
  discoverOutput : String → String

/-- Stages 1–2 glue: the `svcInfos` computed from the parse outcome and the
working directory's base name. -/
def svcInfosResult (env : Env) (cwd : String) : Except JsError (List SvcInfo) :=
  let s1 := step1 env.parseOutcome
  buildSvcInfos (baseName cwd) s1.composeDoc s1.serviceNames

/-- Stage 4 (lines 186–213): one query per stage-1 service name, in order;
each service's entry is whatever the line parser extracts from that query's
stdout (possibly the empty list). -/
def discovery (env : Env) (names : List String) :
    List (String × List PortBinding) × List Event :=
  names.foldl
    (fun acc s =>
      (acc.1 ++ [(s, parseDiscoverOutput (env.discoverOutput s))],
       acc.2 ++ [Event.discoverQuery s]))
    ([], [])

/-- Stage 5 (lines 217–224): iterate the entries of `ports` in insertion
order; the first service with a nonempty mapping list fixes `webUrl` and
breaks; otherwise `webUrl` stays `""`. -/
def pickWebUrl : List (String × List PortBinding) → String
  | [] => ""
  | (_, []) :: rest => pickWebUrl rest
  | (_, b :: _) :: _ => "http://localhost:" ++ b.hostPort

/-- An error thrown out of the handler: one of the two explicit
`new Error(…)` throws (carrying its message), or an uncaught JS `TypeError`. -/
inductive HandlerErr where
  | errorMsg (msg : String)
  | typeError
deriving DecidableEq

/-- The action's output object (lines 226–230). -/
structure HandlerOutput where
  webUrl : String
  ports : List (String × List PortBinding)
deriving DecidableEq

/-- The whole handler (lines 47–231): existence check and fatal throw;
stage 1; building `svcInfos` (lines 86–104, which can throw `TypeError` on a
degenerate service entry — there is no `try` around them); the name pass and
the port pass; `docker compose up` with a fatal throw carrying the exit code
when it is not 0; discovery and `webUrl` selection.  The first component
lists the warnings logged by stage 1 and the external operations issued, in
order. -/
def handler (env : Env) (cwd composeFile : String) :
    List Event × Except HandlerErr HandlerOutput :=
  let composePath := cwd ++ "/" ++ composeFile
  if env.fileExists then
    let s1 := step1 env.parseOutcome
    match svcInfosResult env cwd with
    | .error _ => (s1.events, .error .typeError)
    | .ok svcInfos =>
      let np := namePass svcInfos env.docker0
      let pp := portPass svcInfos np.1
      if env.upExit = some 0 then
        let disc := discovery env s1.serviceNames
        (s1.events ++ np.2 ++ pp.2 ++ [.launch composePath] ++ disc.2,
         .ok ⟨pickWebUrl disc.1, disc.1⟩)
      else
        (s1.events ++ np.2 ++ pp.2 ++ [.launch composePath],
         .error (.errorMsg ("docker compose up exited with code " ++ jsCodeStr env.upExit)))
  else ([], .error (.errorMsg ("Compose file not found: " ++ composePath)))

/-- Modelled from the spec's words in §4.4 ("iterate the map in the same order
as stage 1's service list; the first service with a non-empty mapping sequence
contributes `http://localhost:` + firstMapping.hostPort; if none qualifies,
`webUrl` is the empty string"), as a refinement target for `pickWebUrl`. -/
def webUrlSpec (ports : List (String × List PortBinding)) : String :=
  match ports.find? (fun pr => !pr.2.isEmpty) with
  | some (_, b :: _) => "http://localhost:" ++ b.hostPort
  | _ => ""

instance instDecEqExcept {ε α : Type} [DecidableEq ε] [DecidableEq α] :
    DecidableEq (Except ε α) := fun x y =>
  match x, y with
  | .ok a, .ok b =>
      if h : a = b then isTrue (by subst h; rfl)
      else isFalse (fun hh => h (Except.ok.inj hh))
  | .error e, .error f =>
      if h : e = f then isTrue (by subst h; rfl)
      else isFalse (fun hh => h (Except.error.inj hh))
  | .ok _, .error _ => isFalse (fun hh => Except.noConfusion hh)
  | .error _, .ok _ => isFalse (fun hh => Except.noConfusion hh)

/-- A parsed root value that is a mapping (JS object). -/
def isMapping : YVal → Bool
  | .vobj _ => true
  | _ => false

/-- `null` or `undefined` — the values whose property access throws. -/
def isNullish : YVal → Bool
  | .vnull => true
  | .vundefined => true
  | _ => false

/-- A parsed mapping that has no `services` key. -/
def servicesKeyMissing : YVal → Bool
  | .vobj fields => (fields.lookup "services").isNone
  | _ => false

/-- A manifest whose `web` service entry is YAML `null` (`services: {web: }`);
the file exists, docker is idle and compose-up would succeed. -/
def envNullService : Env :=
  ⟨true, .ok (.vobj [("services", .vobj [("web", .vnull)])]), [], some 0, fun _ => ""⟩

/-- An empty-mapping manifest with `docker compose up` exiting with code 1. -/
def envUpFail : Env :=
  ⟨true, .ok (.vobj []), [], some 1, fun _ => ""⟩

/-- A parsed mapping with no `services` key, with a successful launch. -/
def envNoServicesKey : Env :=
  ⟨true, .ok (.vobj [("x", .vnull)]), [], some 0, fun _ => ""⟩

/-- A manifest whose parse throws, with a successful launch. -/
def envParseFail : Env :=
  ⟨true, .error (), [], some 0, fun _ => ""⟩

/-- Two plain services; only the second one has a discovered binding. -/
def envTwoSvcs : Env :=
  ⟨true,
   .ok (.vobj [("services", .vobj [("alpha", .vobj []), ("beta", .vobj [])])]),
   [], some 0,
   fun s => if s = "beta" then "80/tcp -> 0.0.0.0:32801" else ""⟩

/-- The output of a run against `envTwoSvcs` from workdir `proj`. -/
def outTwoSvcs : HandlerOutput :=
  ⟨"http://localhost:32801", [("alpha", []), ("beta", [⟨"32801", "80"⟩])]⟩

/-- The event trace of a run against `envTwoSvcs` from workdir `proj`,
compose file `f`. -/
def evsTwoSvcs : List Event :=
  [.removeAttempt "proj_alpha_1", .removeAttempt "proj_beta_1",
   .launch "proj/f", .discoverQuery "alpha", .discoverQuery "beta"]

/-- The spec §8 end-to-end example: `api` with `ports: ["3000:3000"]` and
`db` with `container_name: mydb` and no ports; discovery sees `api` on host
port 32800 and nothing for `db`. -/
def envApiDb : Env :=
  ⟨true,
   .ok (.vobj [("services", .vobj
      [("api", .vobj [("ports", .varr [.vstr "3000:3000"])]),
       ("db", .vobj [("container_name", .vstr "mydb")])])]),
   [], some 0,
   fun s => if s = "api" then "3000/tcp -> 0.0.0.0:32800" else ""⟩

/-- The output of a run against `envApiDb` from workdir `proj`. -/
def outApiDb : HandlerOutput :=
  ⟨"http://localhost:32800", [("api", [⟨"32800", "3000"⟩]), ("db", [])]⟩

/-- The event trace of a run against `envApiDb` from workdir `proj`,
compose file `f`. -/
def evsApiDb : List Event :=
  [.removeAttempt "proj_api_1", .removeAttempt "mydb",
   .launch "proj/f", .discoverQuery "api", .discoverQuery "db"]

/-- One service declaring host ports 80 and 8080. -/
def demoSvcs : List SvcInfo := [⟨"web", "proj_web_1", ["80", "8080"]⟩]

/-- One running container whose port text matches both declared ports. -/
def demoDocker : List Container := [⟨"blocker", "0.0.0.0:8080->80/tcp", true⟩]

/-- `Event.removeAttempt` is injective. -/
theorem removeAttempt_injective : Function.Injective Event.removeAttempt := by
  intro a b h
  injection h

/-- Closed form of the remove-each-name fold shared by the name pass and the
inner loop of the port pass: the resulting table keeps exactly the containers
whose name is not in the list, and one removal attempt is appended per listed
name, in order. -/
theorem removeFold_eq (names : List String) (st : List Container) (evs : List Event) :
    names.foldl
      (fun a cname => (removeByFilter a.1 cname, a.2 ++ [Event.removeAttempt cname]))
      (st, evs)
    = (st.filter (fun c => !(names.contains c.name)),
       evs ++ names.map Event.removeAttempt) := by
  induction names generalizing st evs with
  | nil => simp
  | cons n ns ih =>
      rw [List.foldl_cons, ih]
      refine Prod.ext ?_ ?_
      · simp only [removeByFilter, List.filter_filter]
        refine List.filter_congr ?_
        intro c _
        by_cases h1 : c.name = n <;> by_cases h2 : c.name ∈ ns <;>
          simp [h1, h2, List.contains_cons]
      · simp

/-- The name-pass fold, from any starting event list. -/
theorem namePass_general (svcs : List SvcInfo) (st : List Container) (evs : List Event) :
    svcs.foldl
      (fun acc svc =>
        (removeByFilter acc.1 svc.containerName,
         acc.2 ++ [Event.removeAttempt svc.containerName]))
      (st, evs)
    = (st.filter (fun c => !((svcs.map SvcInfo.containerName).contains c.name)),
       evs ++ (svcs.map SvcInfo.containerName).map Event.removeAttempt) := by
  induction svcs generalizing st evs with
  | nil => simp
  | cons s ss ih =>
      rw [List.foldl_cons, ih]
      refine Prod.ext ?_ ?_
      · simp only [removeByFilter, List.filter_filter]
        refine List.filter_congr ?_
        intro c _
        by_cases h1 : c.name = s.containerName <;>
          by_cases h2 : c.name ∈ ss.map SvcInfo.containerName <;>
          simp [h1, h2, List.contains_cons]
      · simp

/-- Closed form of the name pass (lines 119–123). -/
theorem namePass_eq (svcs : List SvcInfo) (st : List Container) :
    namePass svcs st
    = (st.filter (fun c => !((svcs.map SvcInfo.containerName).contains c.name)),
       (svcs.map SvcInfo.containerName).map Event.removeAttempt) := by
  unfold namePass
  rw [namePass_general]
  simp

/-- Closed form of one step of the port pass. -/
theorem portStep_eq (acc : List Container × List Event) (port : String) :
    portStep acc port
    = (acc.1.filter (fun c => !((conflictQuery acc.1 port).contains c.name)),
       acc.2 ++ (conflictQuery acc.1 port).map Event.removeAttempt) := by
  unfold portStep
  exact removeFold_eq _ acc.1 acc.2

/-- The names returned by a conflict query form a sublist of the names in the
table it queried. -/
theorem conflictQuery_sublist (st : List Container) (port : String) :
    (conflictQuery st port).Sublist (st.map Container.name) :=
  (List.filter_sublist st).map Container.name

/-- The invariant carried through the port pass: container names are unique,
every name has been targeted by at most one removal attempt so far, and an
already-targeted name no longer appears in the table. -/
def portInv (a : List Container × List Event) : Prop :=
  (a.1.map Container.name).Nodup ∧
  (∀ n, a.2.count (Event.removeAttempt n) ≤ 1) ∧
  (∀ n, Event.removeAttempt n ∈ a.2 → n ∉ a.1.map Container.name)

/-- One step of the port pass preserves the invariant: the freshly targeted
names are exactly the (distinct, still-present) conflict-query results, and
they are removed from the table in the same step. -/
theorem portStep_inv (acc : List Container × List Event) (port : String)
    (h : portInv acc) : portInv (portStep acc port) := by
  obtain ⟨h1, h2, h3⟩ := h
  rw [portStep_eq]
  have hsub : (conflictQuery acc.1 port).Sublist (acc.1.map Container.name) :=
    conflictQuery_sublist acc.1 port
  have hnd : (conflictQuery acc.1 port).Nodup := hsub.nodup h1
  have hstate : ∀ n, n ∈ ((acc.1.filter
      (fun c => !((conflictQuery acc.1 port).contains c.name))).map Container.name) →
      n ∈ acc.1.map Container.name ∧ n ∉ conflictQuery acc.1 port := by
    intro n hn
    obtain ⟨c, hc, rfl⟩ := List.mem_map.mp hn
    obtain ⟨hcmem, hcfilt⟩ := List.mem_filter.mp hc
    refine ⟨List.mem_map_of_mem Container.name hcmem, ?_⟩
    intro habs
    rw [Bool.not_eq_true'] at hcfilt
    have habs' : (conflictQuery acc.1 port).contains c.name = true := List.elem_iff.mpr habs
    rw [hcfilt] at habs'
    cases habs'
  refine ⟨?_, ?_, ?_⟩
  · exact ((List.filter_sublist acc.1).map Container.name).nodup h1
  · intro n
    rw [List.count_append]
    rw [List.count_map_of_injective _ Event.removeAttempt removeAttempt_injective]
    by_cases hmem : n ∈ conflictQuery acc.1 port
    · have hz : (Event.removeAttempt n) ∉ acc.2 := by
        intro habs
        exact h3 n habs (hsub.subset hmem)
      rw [List.count_eq_zero.mpr hz]
      have := List.nodup_iff_count_le_one.mp hnd n
      omega
    · rw [List.count_eq_zero.mpr hmem]
      have := h2 n
      omega
  · intro n hn hstate'
    obtain ⟨hin, hnot⟩ := hstate n hstate'
    rcases List.mem_append.mp hn with hold | hnew
    · exact h3 n hold hin
    · obtain ⟨m, hm, hmeq⟩ := List.mem_map.mp hnew
      exact hnot (removeAttempt_injective hmeq ▸ hm)

/-- The invariant is preserved by folding `portStep` over any list of ports. -/
theorem foldl_portStep_inv (ports : List String) (acc : List Container × List Event)
    (h : portInv acc) : portInv (ports.foldl portStep acc) := by
  induction ports generalizing acc with
  | nil => exact h
  | cons p ps ih => exact ih _ (portStep_inv acc p h)

/-- The invariant is preserved by the whole port pass, started from any
accumulator. -/
theorem portPass_foldl_inv (svcs : List SvcInfo) (acc : List Container × List Event)
    (h : portInv acc) :
    portInv (svcs.foldl (fun a svc => svc.expectedHostPorts.foldl portStep a) acc) := by
  induction svcs generalizing acc with
  | nil => exact h
  | cons s ss ih => exact ih _ (foldl_portStep_inv _ acc h)

/-- Every event appended by a `portStep` is a removal attempt. -/
theorem portStep_events_shape (acc : List Container × List Event) (port : String)
    (h : ∀ e ∈ acc.2, ∃ n, e = Event.removeAttempt n) :
    ∀ e ∈ (portStep acc port).2, ∃ n, e = Event.removeAttempt n := by
  rw [portStep_eq]
  intro e he
  rcases List.mem_append.mp he with hold | hnew
  · exact h e hold
  · obtain ⟨m, _, hmeq⟩ := List.mem_map.mp hnew
    exact ⟨m, hmeq.symm⟩

/-- Every event recorded by the port pass is a removal attempt. -/
theorem portPass_events_shape (svcs : List SvcInfo) (st : List Container) :
    ∀ e ∈ (portPass svcs st).2, ∃ n, e = Event.removeAttempt n := by
  unfold portPass
  have main : ∀ (l : List SvcInfo) (acc : List Container × List Event),
      (∀ e ∈ acc.2, ∃ n, e = Event.removeAttempt n) →
      ∀ e ∈ (l.foldl (fun a svc => svc.expectedHostPorts.foldl portStep a) acc).2,
      ∃ n, e = Event.removeAttempt n := by
    intro l
    induction l with
    | nil => intro acc h; exact h
    | cons s ss ih =>
        intro acc h
        refine ih _ ?_
        have inner : ∀ (ps : List String) (a : List Container × List Event),
            (∀ e ∈ a.2, ∃ n, e = Event.removeAttempt n) →
            ∀ e ∈ (ps.foldl portStep a).2, ∃ n, e = Event.removeAttempt n := by
          intro ps
          induction ps with
          | nil => intro a ha; exact ha
          | cons p pp ihp => intro a ha; exact ihp _ (portStep_events_shape a p ha)
        exact inner _ acc h
  exact main svcs (st, []) (by intro e he; cases he)

/-- Closed form of stage 4: one entry and one query per service name, in
order, the entry's value being whatever the line parser extracts from that
service's query output. -/
theorem discovery_eq (env : Env) (names : List String) :
    discovery env names
    = (names.map (fun s => (s, parseDiscoverOutput (env.discoverOutput s))),
       names.map Event.discoverQuery) := by
  unfold discovery
  have aux : ∀ (l : List String) (a1 : List (String × List PortBinding)) (a2 : List Event),
      l.foldl
        (fun acc s =>
          (acc.1 ++ [(s, parseDiscoverOutput (env.discoverOutput s))],
           acc.2 ++ [Event.discoverQuery s]))
        (a1, a2)
      = (a1 ++ l.map (fun s => (s, parseDiscoverOutput (env.discoverOutput s))),
         a2 ++ l.map Event.discoverQuery) := by
    intro l
    induction l with
    | nil => intro a1 a2; simp
    | cons s ss ih => intro a1 a2; simp [ih]
  simpa using aux names [] []

/-- `pickWebUrl` (the loop-with-break of lines 217–224) computes the
specification's find-first description. -/
theorem pickWebUrl_eq_spec (ports : List (String × List PortBinding)) :
    pickWebUrl ports = webUrlSpec ports := by
  induction ports with
  | nil => rfl
  | cons hd tl ih =>
      obtain ⟨s, ms⟩ := hd
      cases ms with
      | nil => simpa [pickWebUrl, webUrlSpec, List.find?_cons] using ih
      | cons b bs => simp [pickWebUrl, webUrlSpec, List.find?_cons]

/-- The only event stage 1 can record is the parse-failure warning. -/
theorem step1_events_shape (pr : Except Unit YVal) :
    ∀ e ∈ (step1 pr).events, e = Event.warn "Failed to parse compose file" := by
  intro e he
  match pr with
  | .error _ => simpa [step1] using he
  | .ok doc =>
      rcases hgf : getField doc "services" with hv | sv
      · simp only [step1, hgf] at he
        simpa using he
      · simp only [step1, hgf] at he
        by_cases ht : truthy sv = true
        · rw [if_pos ht] at he
          simp at he
        · rw [if_neg ht] at he
          simp at he

/-- If no line of the output matches the regex, the discovery fold collects
nothing beyond its accumulator. -/
theorem parseFold_none (ls : List String) (acc : List PortBinding)
    (h : ∀ l ∈ ls, parsePortLine l = none) :
    ls.foldl
      (fun acc line =>
        if jsTrimNonempty line then
          match parsePortLine line with
          | some b => acc ++ [b]
          | none => acc
        else acc)
      acc = acc := by
  induction ls generalizing acc with
  | nil => rfl
  | cons l ls ih =>
      rw [List.foldl_cons]
      have hl : parsePortLine l = none := h l (List.mem_cons_self l ls)
      have hstep : (if jsTrimNonempty l then
          match parsePortLine l with
          | some b => acc ++ [b]
          | none => acc
        else acc) = acc := by
        rw [hl]
        split <;> rfl
      rw [hstep]
      exact ih acc (fun x hx => h x (List.mem_cons_of_mem l hx))

/-- A service whose query output has no regex-matching line gets the empty
binding list. -/
theorem parseDiscoverOutput_none (o : String)
    (h : ∀ l ∈ jsSplit o '\n', parsePortLine l = none) :
    parseDiscoverOutput o = [] := parseFold_none _ [] h

/-- `takeWhile` eats exactly a prefix whose elements all satisfy the predicate
when the rest starts with an element that does not. -/
theorem takeWhile_append_not {α : Type} (p : α → Bool) (d r : List α)
    (hd : ∀ c ∈ d, p c = true) (hr : ∀ x, r.head? = some x → p x = false) :
    (d ++ r).takeWhile p = d := by
  induction d with
  | nil =>
      cases r with
      | nil => rfl
      | cons x t => simp [List.takeWhile_cons, hr x rfl]
  | cons c cs ih =>
      have hc : p c = true := hd c (List.mem_cons_self c cs)
      simp only [List.cons_append, List.takeWhile_cons, hc, if_true]
      rw [ih (fun a ha => hd a (List.mem_cons_of_mem c ha))]

/-- Handler run with an existing file, well-formed service entries, and a
zero compose-up exit: the full event trace and output, in closed form. -/
theorem handler_success_eq (env : Env) (cwd cf : String) (svcs : List SvcInfo)
    (hfe : env.fileExists = true) (hsvc : svcInfosResult env cwd = .ok svcs)
    (hup : env.upExit = some 0) :
    handler env cwd cf =
      ((step1 env.parseOutcome).events ++ (namePass svcs env.docker0).2 ++
         (portPass svcs (namePass svcs env.docker0).1).2 ++
         [Event.launch (cwd ++ "/" ++ cf)] ++
         (step1 env.parseOutcome).serviceNames.map Event.discoverQuery,
       .ok ⟨pickWebUrl ((step1 env.parseOutcome).serviceNames.map
              (fun s => (s, parseDiscoverOutput (env.discoverOutput s)))),
            (step1 env.parseOutcome).serviceNames.map
              (fun s => (s, parseDiscoverOutput (env.discoverOutput s)))⟩) := by
  simp only [handler, hfe, if_true, hsvc, hup, discovery_eq]

/-- Handler run with an existing file, well-formed service entries, and a
non-zero (or signal) compose-up exit: the event trace stops at the launch and
the thrown error carries the stringified exit code. -/
theorem handler_upfail_eq (env : Env) (cwd cf : String) (svcs : List SvcInfo)
    (hfe : env.fileExists = true) (hsvc : svcInfosResult env cwd = .ok svcs)
    (hup : ¬ env.upExit = some 0) :
    handler env cwd cf =
      ((step1 env.parseOutcome).events ++ (namePass svcs env.docker0).2 ++
         (portPass svcs (namePass svcs env.docker0).1).2 ++
         [Event.launch (cwd ++ "/" ++ cf)],
       .error (.errorMsg ("docker compose up exited with code " ++ jsCodeStr env.upExit))) := by
  simp only [handler, hfe, if_true, hsvc]
  rw [if_neg hup]

/-- Inversion: any run that produced an `.ok` output did so on the success
path, so its ports map is the stage-1 service list mapped through the output
parser and its web URL is picked from that map. -/
theorem handler_ok_form (env : Env) (cwd cf : String) (evs : List Event)
    (out : HandlerOutput) (h : handler env cwd cf = (evs, .ok out)) :
    out.ports = (step1 env.parseOutcome).serviceNames.map
        (fun s => (s, parseDiscoverOutput (env.discoverOutput s))) ∧
    out.webUrl = pickWebUrl out.ports := by
  by_cases hfe : env.fileExists = true
  · rcases hsvc : svcInfosResult env cwd with e | svcs
    · simp only [handler, hfe, if_true, hsvc] at h
      exact Except.noConfusion (Prod.mk.injEq .. ▸ h).2
    · by_cases hup : env.upExit = some 0
      · rw [handler_success_eq env cwd cf svcs hfe hsvc hup] at h
        obtain ⟨h1, h2⟩ := Prod.mk.injEq .. ▸ h
        have h3 := Except.ok.inj h2
        subst h3
        exact ⟨rfl, rfl⟩
      · rw [handler_upfail_eq env cwd cf svcs hfe hsvc hup] at h
        exact Except.noConfusion (Prod.mk.injEq .. ▸ h).2
  · simp only [handler] at h
    rw [if_neg hfe] at h
    exact Except.noConfusion (Prod.mk.injEq .. ▸ h).2

/-- Claim C1, counterexample: the IP-bound form `"127.0.0.1:8080:80"` does
not yield declared host port `"8080"` — the code takes the first
colon-delimited segment, which is the IP address. -/
theorem claim1_counterexample :
    ¬ declaredHostPort "127.0.0.1:8080:80" = some "8080" := by decide

/-- Claim C1 (amended): splitting a port specification on `:` takes the first
segment whenever there are at least two segments, so `"8080:80"` yields
`"8080"`, `"80"` yields none, and the IP-bound form `"127.0.0.1:8080:80"`
yields `"127.0.0.1"` (not the port).  The last conjunct shows the same three
specifications flowing through the service-definition port extraction. -/
theorem claim1_amended_hostport :
    declaredHostPort "8080:80" = some "8080" ∧
    declaredHostPort "80" = none ∧
    declaredHostPort "127.0.0.1:8080:80" = some "127.0.0.1" ∧
    portsOfValue (.varr [.vstr "8080:80", .vstr "80", .vstr "127.0.0.1:8080:80"])
      = .ok ["8080", "127.0.0.1"] := by decide

/-- Claim C2: the conflict test is substring matching of `"{port}->"`, so
checking port `"80"` against a container that only forwards host port 8080
(`{{.Ports}}` text `"0.0.0.0:8080->80/tcp"`) classifies it as conflicting —
`"80->"` occurs inside `"8080->"`; the `->` anchor does not prevent the
suffix false positive the claim rules out.  The second conjunct shows the
running container being selected for removal by the port-pass query. -/
theorem claim2_conflict_falsepos :
    portConflicts "80" "0.0.0.0:8080->80/tcp" = true ∧
    conflictQuery [⟨"other", "0.0.0.0:8080->80/tcp", true⟩] "80" = ["other"] := by decide

/-- Claim C3: a manifest with a degenerate service entry (`services: {web: }`
parses to a null entry) makes the handler throw an uncaught `TypeError` at
`def.container_name` (line 89) — a third abort path beyond the two fatal
conditions the claim allows, reached before any removal or launch. -/
theorem claim3_null_service_aborts :
    handler envNullService "proj" "docker-compose.yml"
      = ([], .error .typeError) := by decide

/-- Claim C8, counterexample: a parsed manifest lacking a `services` key
(`{x: null}`) produces no warning at all — the whole trace is just the
launch, with no `warn` event, contradicting "the failure is logged as a
warning". -/
theorem claim8_counterexample :
    (handler envNoServicesKey "w" "f").1 = [Event.launch "w/f"] := by decide

/-- Claim C10, counterexample: a valid-YAML non-mapping root that is a bare
scalar (`"hello"`) produces no warning — property access on a string yields
`undefined` rather than throwing, so the `catch` never runs and nothing is
logged, contradicting "a warning is logged". -/
theorem claim10_counterexample :
    Event.warn "Failed to parse compose file"
      ∉ (step1 (Except.ok (YVal.vstr "hello"))).events := by decide

/-- Claim C10 (amended): stage 1 is total for every parse result whose root
is not a mapping, and the service list stays empty; but only a `null` or
`undefined` root raises (and catches) a `TypeError` and logs the warning —
a non-nullish non-mapping root (scalar, boolean, number, array) yields
`undefined` from `.services`, logs nothing, and throws nothing. -/
theorem claim10_amended (v : YVal) (h : isMapping v = false) :
    (step1 (Except.ok v)).serviceNames = [] ∧
    (step1 (Except.ok v)).events =
      (if isNullish v then [Event.warn "Failed to parse compose file"] else []) := by
  cases v with
  | vobj fields => simp [isMapping] at h
  | vnull => exact ⟨rfl, rfl⟩
  | vundefined => exact ⟨rfl, rfl⟩
  | vbool b => exact ⟨rfl, rfl⟩
  | vnum n => exact ⟨rfl, rfl⟩
  | vstr s => exact ⟨rfl, rfl⟩
  | varr xs => exact ⟨rfl, rfl⟩

/-- Witness for the amended claim C10 at the bare scalar `"x"`. -/
theorem claim10_witness :
    (step1 (Except.ok (YVal.vstr "x"))).serviceNames = [] ∧
    (step1 (Except.ok (YVal.vstr "x"))).events =
      (if isNullish (YVal.vstr "x") then [Event.warn "Failed to parse compose file"]
       else []) :=
  claim10_amended (YVal.vstr "x") (by decide)

/-- Claim C4: whenever `docker compose up` exits non-zero (or is killed by a
signal), a handler run that got past the file check and service-entry
processing throws a fatal error whose message is the fixed text followed by
the stringified exit code, and its event trace contains no discovery query —
stage 4 is never reached. -/
theorem claim4_upfail_no_discovery (env : Env) (cwd cf : String) (svcs : List SvcInfo)
    (hfe : env.fileExists = true) (hsvc : svcInfosResult env cwd = .ok svcs)
    (hup : ¬ env.upExit = some 0) :
    (handler env cwd cf).2 =
      .error (.errorMsg ("docker compose up exited with code " ++ jsCodeStr env.upExit)) ∧
    (∃ pre, "docker compose up exited with code " ++ jsCodeStr env.upExit
        = pre ++ jsCodeStr env.upExit) ∧
    ∀ s, Event.discoverQuery s ∉ (handler env cwd cf).1 := by
  rw [handler_upfail_eq env cwd cf svcs hfe hsvc hup]
  refine ⟨rfl, ⟨"docker compose up exited with code ", rfl⟩, ?_⟩
  intro s hmem
  simp only [List.mem_append, List.mem_singleton] at hmem
  rcases hmem with ((h1 | h2) | h3) | h4
  · exact Event.noConfusion (step1_events_shape env.parseOutcome _ h1)
  · simp only [namePass_eq] at h2
    obtain ⟨m, hm, hmeq⟩ := List.mem_map.mp h2
    exact Event.noConfusion hmeq
  · obtain ⟨n, hn⟩ := portPass_events_shape svcs _ _ h3
    exact Event.noConfusion hn
  · exact Event.noConfusion h4

/-- Witness for claim C4: compose-up exits 1 on an empty-mapping manifest;
the error carries "1" and no discovery query is issued. -/
theorem claim4_witness :
    (handler envUpFail "w" "f").2 =
      .error (.errorMsg ("docker compose up exited with code " ++ jsCodeStr envUpFail.upExit)) ∧
    (∃ pre, "docker compose up exited with code " ++ jsCodeStr envUpFail.upExit
        = pre ++ jsCodeStr envUpFail.upExit) ∧
    Event.discoverQuery "web" ∉ (handler envUpFail "w" "f").1 := by
  have h := claim4_upfail_no_discovery envUpFail "w" "f" [] (by decide) (by decide) (by decide)
  exact ⟨h.1, h.2.1, h.2.2 "web"⟩

/-- Claim C5: with distinct resolved container names and a duplicate-free
docker table (docker itself enforces name uniqueness), the name pass records
exactly one removal attempt per resolved container name, and the port pass
records at most one removal attempt per distinct container name even when
one container's port text matches several requested ports — a removal takes
the container out of the table every later query sees. -/
theorem claim5_dedup (svcs : List SvcInfo) (st : List Container)
    (h1 : (svcs.map SvcInfo.containerName).Nodup)
    (h2 : (st.map Container.name).Nodup) :
    (∀ n ∈ svcs.map SvcInfo.containerName,
        (namePass svcs st).2.count (Event.removeAttempt n) = 1) ∧
    (∀ n, (portPass svcs (namePass svcs st).1).2.count (Event.removeAttempt n) ≤ 1) := by
  constructor
  · intro n hn
    simp only [namePass_eq]
    rw [List.count_map_of_injective (svcs.map SvcInfo.containerName)
      Event.removeAttempt removeAttempt_injective n]
    exact List.count_eq_one_of_mem h1 hn
  · have hnd : ((namePass svcs st).1.map Container.name).Nodup := by
      simp only [namePass_eq]
      exact ((List.filter_sublist st).map Container.name).nodup h2
    have hinv : portInv ((namePass svcs st).1, []) := by
      refine ⟨hnd, ?_, ?_⟩
      · intro n; simp
      · intro n hmem; cases hmem
    exact (portPass_foldl_inv svcs _ hinv).2.1

/-- Witness for claim C5: one service declaring ports 80 and 8080 and one
running container whose port text matches both; its name is attempted at
most once in the port pass, and the name-pass attempt count is one. -/
theorem claim5_witness :
    (namePass demoSvcs demoDocker).2.count (Event.removeAttempt "proj_web_1") = 1 ∧
    (portPass demoSvcs (namePass demoSvcs demoDocker).1).2.count
      (Event.removeAttempt "blocker") ≤ 1 := by
  have h := claim5_dedup demoSvcs demoDocker (by decide) (by decide)
  exact ⟨h.1 "proj_web_1" (by decide), h.2 "blocker"⟩

/-- Claim C6: any successful run's ports map has exactly the stage-1 service
names as keys, in order, and its web URL is the find-first description
(`webUrlSpec`): the first entry with a nonempty binding list contributes
`http://localhost:` plus its first binding's host port, else `""`. -/
theorem claim6_weburl (env : Env) (cwd cf : String) (evs : List Event)
    (out : HandlerOutput) (h : handler env cwd cf = (evs, .ok out)) :
    out.ports.map Prod.fst = (step1 env.parseOutcome).serviceNames ∧
    out.webUrl = webUrlSpec out.ports := by
  obtain ⟨hports, hurl⟩ := handler_ok_form env cwd cf evs out h
  constructor
  · rw [hports, List.map_map]
    exact List.map_id _
  · rw [hurl, pickWebUrl_eq_spec]

/-- Witness for claim C6: of two services, only the second has a binding, and
the URL is built from that second service's first binding. -/
theorem claim6_witness :
    outTwoSvcs.ports.map Prod.fst = (step1 envTwoSvcs.parseOutcome).serviceNames ∧
    outTwoSvcs.webUrl = webUrlSpec outTwoSvcs.ports :=
  claim6_weburl envTwoSvcs "proj" "f" evsTwoSvcs outTwoSvcs (by decide)

/-- Claim C7: the port-mapping line parser accepts exactly the lines
`<digits>/tcp -> <host-without-colon>:<digits>`, producing the container
port from the digits before `/tcp` and the host port from the digits after
the colon; the concrete example parses as claimed, and any line whose
protocol segment is `/udp` is skipped (`none`) whatever follows. -/
theorem claim7_portline :
    parsePortLine "80/tcp -> 0.0.0.0:32768" = some ⟨"32768", "80"⟩ ∧
    (∀ d host p : List Char,
        d ≠ [] → d.all Char.isDigit = true →
        host ≠ [] → (∀ c ∈ host, c ≠ ':') →
        p ≠ [] → p.all Char.isDigit = true →
        parsePortLineChars (d ++ "/tcp -> ".data ++ host ++ ':' :: p) = some (d, p)) ∧
    (∀ rest : List Char, parsePortLineChars ("443/udp".data ++ rest) = none) := by
  refine ⟨by decide, ?_, ?_⟩
  · intro d host p hd hdall hh hhco hp hpall
    have hassoc : d ++ "/tcp -> ".data ++ host ++ ':' :: p
        = d ++ ("/tcp -> ".data ++ (host ++ ':' :: p)) := by
      simp [List.append_assoc]
    rw [hassoc]
    have h1 : (d ++ ("/tcp -> ".data ++ (host ++ ':' :: p))).takeWhile Char.isDigit = d := by
      refine takeWhile_append_not Char.isDigit d _ ?_ ?_
      · intro c hc
        rw [List.all_eq_true] at hdall
        exact hdall c hc
      · intro x hx
        have hh' : ("/tcp -> ".data ++ (host ++ ':' :: p)).head? = some '/' := rfl
        rw [hh'] at hx
        cases Option.some.inj hx
        decide
    simp only [parsePortLineChars, h1, List.drop_left]
    rw [if_neg (fun h0 => hd (List.length_eq_zero.mp h0))]
    rw [show (8 : Nat) = ("/tcp -> ".data).length from rfl, List.take_left, List.drop_left]
    rw [if_pos rfl]
    have h2 : ((host ++ ':' :: p).takeWhile (fun c => c != ':')) = host := by
      refine takeWhile_append_not _ host (':' :: p) ?_ ?_
      · intro c hc
        exact bne_iff_ne.mpr (hhco c hc)
      · intro x hx
        have hh' : (':' :: p).head? = some ':' := rfl
        rw [hh'] at hx
        cases Option.some.inj hx
        decide
    rw [h2, List.drop_left]
    show (if host.length ≠ 0 ∧ p ≠ [] ∧ p.all Char.isDigit then some (d, p) else none)
      = some (d, p)
    rw [if_pos ⟨fun h0 => hh (List.length_eq_zero.mp h0), hp, hpall⟩]
  · intro rest
    rfl

/-- Witness for claim C7's generic part: a one-digit container port, a
one-character host and a one-digit host port. -/
theorem claim7_witness :
    parsePortLineChars ("9".data ++ "/tcp -> ".data ++ "h".data ++ ':' :: "7".data)
      = some ("9".data, "7".data) :=
  claim7_portline.2.1 "9".data "h".data "7".data (by decide) (by decide) (by decide)
    (by decide) (by decide) (by decide)

/-- A parsed mapping with no `services` key is silently tolerated: stage 1
yields no services, keeps the parsed value, and logs nothing. -/
theorem step1_missing_services (v : YVal) (hmiss : servicesKeyMissing v = true) :
    step1 (Except.ok v) = ⟨[], v, []⟩ := by
  cases v with
  | vobj fields =>
      have hlk : fields.lookup "services" = none := Option.isNone_iff_eq_none.mp hmiss
      simp [step1, getField, hlk, truthy]
  | vnull => simp [servicesKeyMissing] at hmiss
  | vundefined => simp [servicesKeyMissing] at hmiss
  | vbool b => simp [servicesKeyMissing] at hmiss
  | vnum n => simp [servicesKeyMissing] at hmiss
  | vstr s => simp [servicesKeyMissing] at hmiss
  | varr xs => simp [servicesKeyMissing] at hmiss

/-- Claim C8 (amended): when the manifest parse throws, a warning is logged;
when the manifest parses but lacks a `services` key, nothing is logged; in
both cases the service list is empty, so cleanup and discovery contribute no
events, and the whole trace is stage 1's events followed by exactly the
launch against the raw manifest path. -/
theorem claim8_amended (env : Env) (cwd cf : String)
    (hfe : env.fileExists = true)
    (hcase : env.parseOutcome = .error () ∨
      ∃ v, env.parseOutcome = .ok v ∧ servicesKeyMissing v = true) :
    (step1 env.parseOutcome).serviceNames = [] ∧
    (env.parseOutcome = .error () →
      (step1 env.parseOutcome).events = [Event.warn "Failed to parse compose file"]) ∧
    ((∃ v, env.parseOutcome = .ok v ∧ servicesKeyMissing v = true) →
      (step1 env.parseOutcome).events = []) ∧
    (handler env cwd cf).1 =
      (step1 env.parseOutcome).events ++ [Event.launch (cwd ++ "/" ++ cf)] := by
  have hs1 : (step1 env.parseOutcome).serviceNames = [] := by
    rcases hcase with hpe | ⟨v, hv, hmiss⟩
    · rw [hpe]; rfl
    · rw [hv, step1_missing_services v hmiss]
  have hsvc : svcInfosResult env cwd = .ok [] := by
    simp only [svcInfosResult, buildSvcInfos, hs1]
    rfl
  refine ⟨hs1, ?_, ?_, ?_⟩
  · intro hpe
    rw [hpe]
    rfl
  · rintro ⟨v, hv, hmiss⟩
    rw [hv, step1_missing_services v hmiss]
  · by_cases hup : env.upExit = some 0
    · rw [handler_success_eq env cwd cf [] hfe hsvc hup]
      simp [namePass, portPass, hs1]
    · rw [handler_upfail_eq env cwd cf [] hfe hsvc hup]
      simp [namePass, portPass]

/-- Witness for the amended claim C8 at a failing parse with a successful
launch. -/
theorem claim8_witness :
    (step1 envParseFail.parseOutcome).serviceNames = [] ∧
    (step1 envParseFail.parseOutcome).events = [Event.warn "Failed to parse compose file"] ∧
    (handler envParseFail "w" "f").1 =
      (step1 envParseFail.parseOutcome).events ++ [Event.launch ("w" ++ "/" ++ "f")] := by
  have h := claim8_amended envParseFail "w" "f" (by decide) (Or.inl rfl)
  exact ⟨h.1, h.2.1 rfl, h.2.2.2⟩

/-- Claim C9: any successful run's ports map is exactly the stage-1 service
list, in order, each service mapped to the bindings its own query output
parses to — so there is exactly one entry per stage-1 name, and a service
whose output has no parsable line is present with the empty list, never
omitted. -/
theorem claim9_ports_complete (env : Env) (cwd cf : String) (evs : List Event)
    (out : HandlerOutput) (h : handler env cwd cf = (evs, .ok out)) :
    out.ports = (step1 env.parseOutcome).serviceNames.map
        (fun s => (s, parseDiscoverOutput (env.discoverOutput s))) ∧
    ∀ s ∈ (step1 env.parseOutcome).serviceNames,
      (∀ l ∈ jsSplit (env.discoverOutput s) '\n', parsePortLine l = none) →
      (s, ([] : List PortBinding)) ∈ out.ports := by
  have hform := (handler_ok_form env cwd cf evs out h).1
  refine ⟨hform, ?_⟩
  intro s hs hnone
  rw [hform]
  refine List.mem_map.mpr ⟨s, hs, ?_⟩
  show (s, parseDiscoverOutput (env.discoverOutput s)) = (s, [])
  rw [parseDiscoverOutput_none _ hnone]

/-- Witness for claim C9 at the spec §8 example: `api` gets its parsed
binding, `db` (empty query output) is present with the empty list. -/
theorem claim9_witness :
    outApiDb.ports = (step1 envApiDb.parseOutcome).serviceNames.map
        (fun s => (s, parseDiscoverOutput (envApiDb.discoverOutput s))) ∧
    ("db", ([] : List PortBinding)) ∈ outApiDb.ports := by
  have h := claim9_ports_complete envApiDb "proj" "f" evsApiDb outApiDb (by decide)
  exact ⟨h.1, h.2 "db" (by decide) (by decide)⟩
